import Mathlib

/-!
Verification of the `DocumentationCache` store (`src/cache.py`) and the
`search_docs` tool entry (`src/server.py`) of the bpy_mcp repository.

The cache is a SQLite-backed, two-table, TTL-expiring key-value store.  The
shallow embedding below models:

* each SQLite table as a list of rows (the SQL statements used by the code —
  point `SELECT`/`fetchone`, keyed `UPDATE`, keyed `DELETE`, range `DELETE`,
  `INSERT OR REPLACE` — become `find?` / `map` / `filter` / replace on the
  list);
* `time.time()` values and `created_at` timestamps as integers (only their
  ordering and differences matter to the code);
* the JSON payloads as values of abstract types `γ` (one search-result
  record) and `δ` (one function-details record): the stdlib round-trip
  `json.loads (json.dumps x) = x` for the values cached here is modelled by
  storing the value itself;
* a `DocumentationCache` instance as a two-variant type: in the disabled
  path `__init__` returns before assigning `self.ttl_seconds` and
  `self.db_path`, so a disabled instance carries neither a TTL nor a
  database.
-/

/-- Python exception values that can flow through the modelled code paths:
`Path.mkdir` raises `PermissionError` on insufficient permission,
`FileExistsError` when the path already exists as a regular file and
`FileNotFoundError` when a parent directory is missing; reading an instance
attribute that was never assigned raises `AttributeError` (carrying the
attribute name). -/
inductive PyExc where
  | permissionError
  | fileExistsError
  | fileNotFoundError
  | attributeError (attr : String)
  | otherError (msg : String)
  deriving DecidableEq

/-- Model of Python `str.lower` on one character, on the ASCII range the
repository's inputs use: uppercase letters are shifted down into lowercase,
every other character is unchanged. -/
def pyCharLower (c : Char) : Char :=
  if 65 ≤ c.toNat ∧ c.toNat ≤ 90 then Char.ofNat (c.toNat + 32) else c

/-- The characters Python `str.strip()` removes (ASCII whitespace: tab,
newline, vertical tab, form feed, carriage return, space). -/
def pyIsSpace (c : Char) : Bool :=
  decide (c.toNat = 32 ∨ (9 ≤ c.toNat ∧ 13 ≥ c.toNat))

/-- Model of Python `str.lower()`. -/
def pyLower (s : String) : String := ⟨s.data.map pyCharLower⟩

/-- Drop the trailing elements satisfying `p` (helper for `str.strip()`). -/
def dropTrailing (p : Char → Bool) (l : List Char) : List Char :=
  (l.reverse.dropWhile p).reverse

/-- Model of Python `str.strip()`: remove leading and trailing whitespace. -/
def pyStrip (s : String) : String :=
  ⟨dropTrailing pyIsSpace (s.data.dropWhile pyIsSpace)⟩

/-- Decimal digit character, for `d < 10`. -/
def digitChar10 (d : Nat) : Char := Char.ofNat (48 + d)

/-- Fuel-indexed digit recursion (structural, so that concrete values
reduce in the kernel); any `fuel > n` yields the digits of `n`. -/
def natDecimalAux (fuel : Nat) (n : Nat) : List Char :=
  match fuel with
  | 0 => []
  | fuel + 1 =>
      if n < 10 then [digitChar10 n]
      else natDecimalAux fuel (n / 10) ++ [digitChar10 (n % 10)]

/-- Decimal rendering of a natural number, exactly as Python `str` renders
it (no sign, no leading zeros, `0 ↦ "0"`). -/
def natDecimal (n : Nat) : List Char := natDecimalAux (n + 1) n

/-- Model of Python `str` on `int`: decimal digits, with a leading minus
sign for negative values. -/
def pyStrInt (i : Int) : List Char :=
  if i < 0 then '-' :: natDecimal i.natAbs else natDecimal i.toNat

/-- Hexadecimal digit character (`0`-`9`, `a`-`f`), for `d < 16`. -/
def hexDigitChar (d : Nat) : Char :=
  if d < 10 then Char.ofNat (48 + d) else Char.ofNat (87 + d)

/-- Fixed-width (six hex digits, big-endian) encoding of one character's
code point; code points are below `16^6 = 16777216`. -/
def encodeCharHex (c : Char) : List Char :=
  [hexDigitChar (c.toNat / 1048576 % 16), hexDigitChar (c.toNat / 65536 % 16),
   hexDigitChar (c.toNat / 4096 % 16), hexDigitChar (c.toNat / 256 % 16),
   hexDigitChar (c.toNat / 16 % 16), hexDigitChar (c.toNat % 16)]

/-- Model of `hashlib.sha256(key.encode()).hexdigest()` (Python standard
library, external to this repository).  The spec relies on the digest being
a stable, collision-resistant, fixed-length hex string; the embedding keeps
exactly those properties — a deterministic, injective map to a hex string —
realised as the hex encoding of the key's code points, since no theorem
below depends on the numeric value of a SHA-256 digest, only on its
determinism and collision-freeness. -/
def sha256_hexdigest (s : String) : String := ⟨s.data.flatMap encodeCharHex⟩

/-- One row of the `search_cache` table:
`(query_hash TEXT PRIMARY KEY, query TEXT, results TEXT, created_at REAL,
hit_count INTEGER DEFAULT 0)`.  `results` holds the `json.dumps`-serialized
list; it is modelled by the list value itself (see the file header). -/
structure SearchRow (γ : Type) where
  query_hash : String
  query : String
  results : List γ
  created_at : Int
  hit_count : Nat
  deriving DecidableEq

/-- One row of the `function_cache` table:
`(function_path TEXT PRIMARY KEY, details TEXT, created_at REAL,
hit_count INTEGER DEFAULT 0)`. -/
structure FunctionRow (δ : Type) where
  function_path : String
  details : δ
  created_at : Int
  hit_count : Nat
  deriving DecidableEq

/-- Content of the `blender_docs_cache.db` file: the two tables created by
`_init_db`. -/
structure CacheDB (γ δ : Type) where
  search_cache : List (SearchRow γ)
  function_cache : List (FunctionRow δ)
  deriving DecidableEq

/-- A `DocumentationCache` instance.  The source gates every method on a
boolean `self.disabled`; in the disabled path `__init__` returns before
assigning `self.ttl_seconds` and `self.db_path` (cache.py lines 40-41), so
a disabled instance has no TTL and no database handle — modelled as a
fieldless constructor.  An enabled instance carries the resolved
`ttl_seconds` and the database content. -/
inductive DocumentationCache (γ δ : Type) where
  | disabled
  | active (ttl_seconds : Int) (db : CacheDB γ δ)
  deriving DecidableEq

/-- Model of `DocumentationCache.__init__` after the environment overrides
(`BLENDER_CACHE_DIR`, `CACHE_TTL_SECONDS`) are resolved into the arguments.
`mkdirResult` is the outcome of `self.cache_dir.mkdir(exist_ok=True)`; the
`try`/`except` catches exactly `PermissionError` and flags the instance
disabled; any other exception propagates.  `existing` is the content of the
database file: `_init_db` only issues `CREATE TABLE IF NOT EXISTS` and
`CREATE INDEX IF NOT EXISTS`, preserving whatever rows the file holds. -/
def DocumentationCache.construct (γ δ : Type) (mkdirResult : Except PyExc Unit)
    (ttl_seconds : Int) (existing : CacheDB γ δ) :
    Except PyExc (DocumentationCache γ δ) :=
  match mkdirResult with
  | .ok () => .ok (.active ttl_seconds existing)
  | .error .permissionError => .ok .disabled
  | .error e => .error e

/-- Model of `DocumentationCache._hash_query`:
`hashlib.sha256(f"{query.lower().strip()}:{limit}".encode()).hexdigest()`. -/
def hash_query (query : String) (limit : Int) : String :=
  sha256_hexdigest ⟨(pyStrip (pyLower query)).data ++ ':' :: pyStrInt limit⟩

/-- `SELECT results, created_at FROM search_cache WHERE query_hash = ?`
followed by `fetchone()`: the first matching row, if any (the primary key
keeps at most one in practice). -/
def findSearch {γ : Type} (key : String) (rows : List (SearchRow γ)) :
    Option (SearchRow γ) :=
  rows.find? fun r => r.query_hash == key

/-- `UPDATE search_cache SET hit_count = hit_count + 1 WHERE query_hash = ?`. -/
def bumpSearch {γ : Type} (key : String) (rows : List (SearchRow γ)) :
    List (SearchRow γ) :=
  rows.map fun r =>
    if r.query_hash == key then { r with hit_count := r.hit_count + 1 } else r

/-- `DELETE FROM search_cache WHERE query_hash = ?`. -/
def deleteSearch {γ : Type} (key : String) (rows : List (SearchRow γ)) :
    List (SearchRow γ) :=
  rows.filter fun r => !(r.query_hash == key)

/-- `INSERT OR REPLACE INTO search_cache (query_hash, query, results,
created_at) VALUES (?, ?, ?, ?)`: SQLite deletes any row with the same
primary key and inserts the new row; `hit_count` is absent from the column
list, so it takes its declared default 0. -/
def replaceSearch {γ : Type} (row : SearchRow γ) (rows : List (SearchRow γ)) :
    List (SearchRow γ) :=
  deleteSearch row.query_hash rows ++ [row]

/-- `SELECT details, created_at FROM function_cache WHERE function_path = ?`
followed by `fetchone()`. -/
def findFunction {δ : Type} (key : String) (rows : List (FunctionRow δ)) :
    Option (FunctionRow δ) :=
  rows.find? fun r => r.function_path == key

/-- `UPDATE function_cache SET hit_count = hit_count + 1 WHERE function_path = ?`. -/
def bumpFunction {δ : Type} (key : String) (rows : List (FunctionRow δ)) :
    List (FunctionRow δ) :=
  rows.map fun r =>
    if r.function_path == key then { r with hit_count := r.hit_count + 1 } else r

/-- `DELETE FROM function_cache WHERE function_path = ?`. -/
def deleteFunction {δ : Type} (key : String) (rows : List (FunctionRow δ)) :
    List (FunctionRow δ) :=
  rows.filter fun r => !(r.function_path == key)

/-- `INSERT OR REPLACE INTO function_cache (function_path, details,
created_at) VALUES (?, ?, ?)`; `hit_count` defaults to 0. -/
def replaceFunction {δ : Type} (row : FunctionRow δ) (rows : List (FunctionRow δ)) :
    List (FunctionRow δ) :=
  deleteFunction row.function_path rows ++ [row]

/-- Model of `DocumentationCache.get_search_results` called at time `now`
(`time.time()`): the Python return value paired with the cache state after
the call.  Disabled instances return `None` before touching storage.  A
live hit (`now - created_at < ttl`) increments the row's `hit_count` and
returns the deserialized payload; an expired hit deletes the row and
returns `None`; a missing row returns `None`. -/
def DocumentationCache.get_search_results {γ δ : Type}
    (c : DocumentationCache γ δ) (query : String) (limit : Int) (now : Int) :
    Option (List γ) × DocumentationCache γ δ :=
  match c with
  | .disabled => (none, .disabled)
  | .active ttl db =>
      let query_hash := hash_query query limit
      match findSearch query_hash db.search_cache with
      | none => (none, .active ttl db)
      | some row =>
          if now - row.created_at < ttl then
            (some row.results,
             .active ttl { db with search_cache := bumpSearch query_hash db.search_cache })
          else
            (none,
             .active ttl { db with search_cache := deleteSearch query_hash db.search_cache })

/-- Model of `DocumentationCache.cache_search_results` called at time `now`:
upsert by the derived key, storing the raw query text, the serialized
results and `created_at = time.time()`; no-op when disabled. -/
def DocumentationCache.cache_search_results {γ δ : Type}
    (c : DocumentationCache γ δ) (query : String) (limit : Int)
    (results : List γ) (now : Int) : DocumentationCache γ δ :=
  match c with
  | .disabled => .disabled
  | .active ttl db =>
      let row : SearchRow γ :=
        { query_hash := hash_query query limit, query := query,
          results := results, created_at := now, hit_count := 0 }
      .active ttl { db with search_cache := replaceSearch row db.search_cache }

/-- Model of `DocumentationCache.get_function_details` called at time `now`:
identical hit/miss/expire semantics to the search read, keyed directly on
`function_path`. -/
def DocumentationCache.get_function_details {γ δ : Type}
    (c : DocumentationCache γ δ) (function_path : String) (now : Int) :
    Option δ × DocumentationCache γ δ :=
  match c with
  | .disabled => (none, .disabled)
  | .active ttl db =>
      match findFunction function_path db.function_cache with
      | none => (none, .active ttl db)
      | some row =>
          if now - row.created_at < ttl then
            (some row.details,
             .active ttl { db with function_cache := bumpFunction function_path db.function_cache })
          else
            (none,
             .active ttl { db with function_cache := deleteFunction function_path db.function_cache })

/-- Model of `DocumentationCache.cache_function_details` called at time
`now`: upsert keyed on `function_path`; no-op when disabled. -/
def DocumentationCache.cache_function_details {γ δ : Type}
    (c : DocumentationCache γ δ) (function_path : String) (details : δ)
    (now : Int) : DocumentationCache γ δ :=
  match c with
  | .disabled => .disabled
  | .active ttl db =>
      let row : FunctionRow δ :=
        { function_path := function_path, details := details,
          created_at := now, hit_count := 0 }
      .active ttl { db with function_cache := replaceFunction row db.function_cache }

/-- Model of `DocumentationCache.clear_expired` called at time `now`:
`DELETE FROM search_cache WHERE created_at < now - ttl` and the same on
`function_cache`; returns the summed `rowcount`s with the new state.
Returns 0 and changes nothing when disabled. -/
def DocumentationCache.clear_expired {γ δ : Type}
    (c : DocumentationCache γ δ) (now : Int) : Nat × DocumentationCache γ δ :=
  match c with
  | .disabled => (0, .disabled)
  | .active ttl db =>
      let expired_time := now - ttl
      let search_deleted :=
        (db.search_cache.filter fun r => decide (r.created_at < expired_time)).length
      let function_deleted :=
        (db.function_cache.filter fun r => decide (r.created_at < expired_time)).length
      (search_deleted + function_deleted,
       .active ttl
         { search_cache :=
             db.search_cache.filter fun r => !decide (r.created_at < expired_time),
           function_cache :=
             db.function_cache.filter fun r => !decide (r.created_at < expired_time) })

/-- The dictionary returned by `DocumentationCache.get_stats` (field per
key; `status` is present only in the disabled-branch literal, hence an
`Option`). -/
structure CacheStatsDict where
  search_entries : Nat
  function_entries : Nat
  total_entries : Nat
  search_hits : Nat
  function_hits : Nat
  total_hits : Nat
  database_size_mb : ℚ
  ttl_hours : ℚ
  status : Option String
  deriving DecidableEq

/-- Round-half-to-even on an exact rational: model of Python `round` on the
stored value (binary floating-point artifacts are not modelled; no theorem
below depends on this field). -/
def roundHalfEven (q : ℚ) : ℤ :=
  let f := ⌊q⌋
  if q - f < 1/2 then f
  else if (1 : ℚ)/2 < q - f then f + 1
  else if f % 2 = 0 then f else f + 1

/-- Python `round(x, 2)`. -/
def pyRound2 (q : ℚ) : ℚ := (roundHalfEven (q * 100) : ℚ) / 100

/-- Model of `DocumentationCache.get_stats`; `db_size_bytes` is
`self.db_path.stat().st_size`.  On a disabled instance the method builds
the fixed snapshot dict literal, but evaluating its entry
`"ttl_hours": self.ttl_seconds / 3600` reads the attribute that the
disabled `__init__` path never assigned, so the call raises
`AttributeError` instead of returning the snapshot. -/
def DocumentationCache.get_stats {γ δ : Type} (c : DocumentationCache γ δ)
    (db_size_bytes : Nat) : Except PyExc CacheStatsDict :=
  match c with
  | .disabled => .error (.attributeError "ttl_seconds")
  | .active ttl db =>
      let search_count := db.search_cache.length
      let function_count := db.function_cache.length
      let search_hits := (db.search_cache.map SearchRow.hit_count).sum
      let function_hits := (db.function_cache.map FunctionRow.hit_count).sum
      .ok { search_entries := search_count, function_entries := function_count,
            total_entries := search_count + function_count,
            search_hits := search_hits, function_hits := function_hits,
            total_hits := search_hits + function_hits,
            database_size_mb := pyRound2 ((db_size_bytes : ℚ) / 1024 / 1024),
            ttl_hours := (ttl : ℚ) / 3600,
            status := none }

/-- Model of `DocumentationCache.clear_all`: empties both tables; no-op
when disabled. -/
def DocumentationCache.clear_all {γ δ : Type} (c : DocumentationCache γ δ) :
    DocumentationCache γ δ :=
  match c with
  | .disabled => .disabled
  | .active ttl _ => .active ttl { search_cache := [], function_cache := [] }

/-- Default of the `limit` parameter in the `search_docs` tool signature
(`async def search_docs(query: str, limit: int = 5)`). -/
def search_docs_default_limit : Int := 5

/-- The validation line of `search_docs`: `limit = max(1, min(20, limit))`. -/
def search_docs_used_limit (limit : Int) : Int := max 1 (min 20 limit)

/-- Python truthiness of the `Optional[List]` returned by
`get_search_results`, as tested by `if cached_results:` — `None` and the
empty list are falsy. -/
def pyTruthy {γ : Type} : Option (List γ) → Bool
  | none => false
  | some rs => !rs.isEmpty

/-- The remote collaborators of `search_docs` (embedding generation and the
vector-index query), modelled as a deterministic oracle from the `top_k`
value passed to `pinecone_index.query` to the list of returned matches. -/
structure SearchEnv (γ : Type) where
  remote_query : Int → List γ

/-- Outcome of one `search_docs` call: a formatted answer served from the
cache, or one served from the remote index (and then written back). -/
inductive SearchDocsResult (γ : Type) where
  | cached (rs : List γ)
  | remote (rs : List γ)
  deriving DecidableEq

/-- Body of `search_docs` after limit validation: look up the cache with
the validated limit; if the cached value is truthy, format it; otherwise
query the remote index with the same validated limit, cache the matches
under it, and format them.  (In the truthy branch `getD` is unreachable
with `none`.) -/
def search_docs_core {γ δ : Type} (env : SearchEnv γ)
    (c : DocumentationCache γ δ) (query : String) (now : Int) (limit : Int) :
    SearchDocsResult γ × DocumentationCache γ δ :=
  let res := c.get_search_results query limit now
  if pyTruthy res.1 then (.cached (res.1.getD []), res.2)
  else
    let results := env.remote_query limit
    (.remote results, res.2.cache_search_results query limit results now)

/-- Model of the `search_docs` tool: clamp the limit, then run the body
with the clamped limit. -/
def search_docs {γ δ : Type} (env : SearchEnv γ) (c : DocumentationCache γ δ)
    (query : String) (now : Int)
    (limit : Int := search_docs_default_limit) :
    SearchDocsResult γ × DocumentationCache γ δ :=
  search_docs_core env c query now (search_docs_used_limit limit)

/-! ### Supporting lemmas: decimal rendering is injective -/

/-- Value of a digit string (base 10), left inverse of the rendering. -/
def decodeDec (l : List Char) : Nat :=
  l.foldl (fun a c => a * 10 + (c.toNat - 48)) 0

theorem digitChar10_toNat (d : Nat) (h : d < 10) : (digitChar10 d).toNat = 48 + d := by
  interval_cases d <;> decide

theorem decodeDec_append_digit (l : List Char) (c : Char) :
    decodeDec (l ++ [c]) = decodeDec l * 10 + (c.toNat - 48) := by
  unfold decodeDec
  rw [List.foldl_append]
  rfl

theorem decodeDec_natDecimalAux (fuel n : Nat) (h : n < fuel) :
    decodeDec (natDecimalAux fuel n) = n := by
  induction fuel generalizing n with
  | zero => omega
  | succ fuel ih =>
      rw [natDecimalAux]
      by_cases h10 : n < 10
      · rw [if_pos h10]
        unfold decodeDec
        simp [List.foldl, digitChar10_toNat n h10]
      · rw [if_neg h10, decodeDec_append_digit, ih (n / 10) (by omega),
          digitChar10_toNat (n % 10) (by omega)]
        omega

theorem mem_natDecimalAux_digit (fuel n : Nat) (c : Char)
    (h : c ∈ natDecimalAux fuel n) : 48 ≤ c.toNat ∧ c.toNat ≤ 57 := by
  induction fuel generalizing n with
  | zero => simp [natDecimalAux] at h
  | succ fuel ih =>
      rw [natDecimalAux] at h
      by_cases h10 : n < 10
      · rw [if_pos h10] at h
        simp at h
        rw [h, digitChar10_toNat n h10]
        omega
      · rw [if_neg h10] at h
        rcases List.mem_append.mp h with h1 | h1
        · exact ih (n / 10) h1
        · simp at h1
          rw [h1, digitChar10_toNat (n % 10) (by omega)]
          omega

theorem natDecimal_inj {n m : Nat} (h : natDecimal n = natDecimal m) : n = m := by
  have hn := decodeDec_natDecimalAux (n + 1) n (by omega)
  have hm := decodeDec_natDecimalAux (m + 1) m (by omega)
  unfold natDecimal at h
  rw [← hn, ← hm, h]

theorem natDecimal_ne_nil (n : Nat) : natDecimal n ≠ [] := by
  unfold natDecimal natDecimalAux
  by_cases h10 : n < 10
  · rw [if_pos h10]
    simp
  · rw [if_neg h10]
    simp

theorem pyStrInt_inj {i j : Int} (h : pyStrInt i = pyStrInt j) : i = j := by
  unfold pyStrInt at h
  by_cases hi : i < 0 <;> by_cases hj : j < 0
  · rw [if_pos hi, if_pos hj] at h
    have := natDecimal_inj (List.cons.injEq .. ▸ h).2
    omega
  · rw [if_pos hi, if_neg hj] at h
    exfalso
    have hm : '-' ∈ natDecimal j.toNat := by
      rw [← h]
      simp
    have := mem_natDecimalAux_digit _ _ _ hm
    simp at this
  · rw [if_neg hi, if_pos hj] at h
    exfalso
    have hm : '-' ∈ natDecimal i.toNat := by
      rw [h]
      simp
    have := mem_natDecimalAux_digit _ _ _ hm
    simp at this
  · rw [if_neg hi, if_neg hj] at h
    have := natDecimal_inj h
    omega

/-! ### Supporting lemmas: the digest model is injective -/

theorem hexDigitChar_injOn : ∀ a < 16, ∀ b < 16, hexDigitChar a = hexDigitChar b → a = b := by
  decide

theorem char_toNat_lt (c : Char) : c.toNat < 1114112 := by
  have := c.valid
  unfold Char.toNat at *
  rcases this with h | ⟨h1, h2⟩ <;> omega

theorem encodeCharHex_inj {c d : Char} (h : encodeCharHex c = encodeCharHex d) : c = d := by
  unfold encodeCharHex at h
  simp only [List.cons.injEq, and_true] at h
  obtain ⟨e5, e4, e3, e2, e1, e0⟩ := h
  have h5 := hexDigitChar_injOn _ (Nat.mod_lt _ (by omega)) _ (Nat.mod_lt _ (by omega)) e5
  have h4 := hexDigitChar_injOn _ (Nat.mod_lt _ (by omega)) _ (Nat.mod_lt _ (by omega)) e4
  have h3 := hexDigitChar_injOn _ (Nat.mod_lt _ (by omega)) _ (Nat.mod_lt _ (by omega)) e3
  have h2 := hexDigitChar_injOn _ (Nat.mod_lt _ (by omega)) _ (Nat.mod_lt _ (by omega)) e2
  have h1 := hexDigitChar_injOn _ (Nat.mod_lt _ (by omega)) _ (Nat.mod_lt _ (by omega)) e1
  have h0 := hexDigitChar_injOn _ (Nat.mod_lt _ (by omega)) _ (Nat.mod_lt _ (by omega)) e0
  have hc := char_toNat_lt c
  have hd := char_toNat_lt d
  apply Char.ext
  apply UInt32.toNat.inj
  show c.toNat = d.toNat
  omega

theorem flatMapHex_inj (l1 l2 : List Char)
    (h : l1.flatMap encodeCharHex = l2.flatMap encodeCharHex) : l1 = l2 := by
  induction l1 generalizing l2 with
  | nil =>
      cases l2 with
      | nil => rfl
      | cons d t =>
          rw [List.flatMap_nil, List.flatMap_cons] at h
          simp [encodeCharHex] at h
  | cons c t ih =>
      cases l2 with
      | nil =>
          rw [List.flatMap_nil, List.flatMap_cons] at h
          simp [encodeCharHex] at h
      | cons d t2 =>
          rw [List.flatMap_cons, List.flatMap_cons] at h
          have hlen : (encodeCharHex c).length = (encodeCharHex d).length := by
            simp [encodeCharHex]
          obtain ⟨hh, ht⟩ := List.append_inj h hlen
          rw [encodeCharHex_inj hh, ih t2 ht]

theorem sha256_hexdigest_inj {s t : String}
    (h : sha256_hexdigest s = sha256_hexdigest t) : s = t := by
  unfold sha256_hexdigest at h
  injection h with h
  cases s
  cases t
  exact congrArg String.mk (flatMapHex_inj _ _ h)

/-! ### Supporting lemmas: query normalization (`query.lower().strip()`) -/

theorem ofNat_shift32_toNat (n : Nat) (h1 : 65 ≤ n) (h2 : n ≤ 90) :
    (Char.ofNat (n + 32)).toNat = n + 32 := by
  interval_cases n <;> decide

/-- Lowercasing never changes whether a character is whitespace. -/
theorem pyIsSpace_pyCharLower (c : Char) : pyIsSpace (pyCharLower c) = pyIsSpace c := by
  unfold pyCharLower
  by_cases h : 65 ≤ c.toNat ∧ c.toNat ≤ 90
  · rw [if_pos h]
    unfold pyIsSpace
    rw [ofNat_shift32_toNat c.toNat h.1 h.2]
    rw [decide_eq_false (by omega), decide_eq_false (by omega)]
  · rw [if_neg h]

theorem dropWhile_append_all {p : Char → Bool} {l1 : List Char} (l2 : List Char)
    (h : ∀ x ∈ l1, p x = true) : (l1 ++ l2).dropWhile p = l2.dropWhile p := by
  induction l1 with
  | nil => rfl
  | cons a t ih =>
      simp [List.dropWhile_cons, h a (by simp)]
      exact ih fun x hx => h x (by simp [hx])

theorem dropTrailing_append_all {p : Char → Bool} {w : List Char} (l : List Char)
    (h : ∀ x ∈ w, p x = true) : dropTrailing p (l ++ w) = dropTrailing p l := by
  unfold dropTrailing
  rw [List.reverse_append,
    dropWhile_append_all _ fun x hx => h x (List.mem_reverse.mp hx)]

/-- Stripping ignores an all-whitespace prefix and suffix. -/
theorem strip_pad (w1 c w2 : List Char)
    (h1 : ∀ x ∈ w1, pyIsSpace x = true) (h2 : ∀ x ∈ w2, pyIsSpace x = true) :
    dropTrailing pyIsSpace ((w1 ++ c ++ w2).dropWhile pyIsSpace)
      = dropTrailing pyIsSpace (c.dropWhile pyIsSpace) := by
  rw [List.append_assoc, dropWhile_append_all _ h1, List.dropWhile_append]
  by_cases he : (c.dropWhile pyIsSpace).isEmpty
  · rw [if_pos he]
    have hw2 : w2.dropWhile pyIsSpace = [] := by
      have h0 : (w2 ++ ([] : List Char)).dropWhile pyIsSpace
          = List.dropWhile pyIsSpace [] := dropWhile_append_all [] h2
      rw [List.append_nil] at h0
      exact h0
    have hc : c.dropWhile pyIsSpace = [] := by
      cases hx : c.dropWhile pyIsSpace
      · rfl
      · rw [hx] at he
        simp at he
    rw [hw2, hc]
  · rw [if_neg he]
    exact dropTrailing_append_all _ h2

/-- The two strings differ only in letter case and in leading or trailing
whitespace: each splits as whitespace ++ core ++ whitespace, with the two
cores letterwise equal up to case. -/
def CaseWsVariant (q1 q2 : String) : Prop :=
  ∃ w1 c1 w2 u1 c2 u2 : List Char,
    q1.data = w1 ++ c1 ++ w2 ∧ q2.data = u1 ++ c2 ++ u2 ∧
    (∀ x ∈ w1, pyIsSpace x = true) ∧ (∀ x ∈ w2, pyIsSpace x = true) ∧
    (∀ x ∈ u1, pyIsSpace x = true) ∧ (∀ x ∈ u2, pyIsSpace x = true) ∧
    c1.map pyCharLower = c2.map pyCharLower

/-- Normalization collapses case-and-surrounding-whitespace variants. -/
theorem pyStrip_pyLower_eq {q1 q2 : String} (h : CaseWsVariant q1 q2) :
    pyStrip (pyLower q1) = pyStrip (pyLower q2) := by
  obtain ⟨w1, c1, w2, u1, c2, u2, hq1, hq2, hw1, hw2, hu1, hu2, hc⟩ := h
  unfold pyStrip pyLower
  rw [hq1, hq2]
  show String.mk (dropTrailing pyIsSpace
      (((w1 ++ c1 ++ w2).map pyCharLower).dropWhile pyIsSpace)) = _
  rw [List.map_append, List.map_append, List.map_append, List.map_append,
    strip_pad _ _ _
      (fun x hx => by
        obtain ⟨y, hy, rfl⟩ := List.mem_map.mp hx
        rw [pyIsSpace_pyCharLower]
        exact hw1 y hy)
      (fun x hx => by
        obtain ⟨y, hy, rfl⟩ := List.mem_map.mp hx
        rw [pyIsSpace_pyCharLower]
        exact hw2 y hy),
    strip_pad _ _ _
      (fun x hx => by
        obtain ⟨y, hy, rfl⟩ := List.mem_map.mp hx
        rw [pyIsSpace_pyCharLower]
        exact hu1 y hy)
      (fun x hx => by
        obtain ⟨y, hy, rfl⟩ := List.mem_map.mp hx
        rw [pyIsSpace_pyCharLower]
        exact hu2 y hy),
    hc]

/-- Distinct limits give distinct suffixes, hence distinct digests. -/
theorem hash_query_ne_of_limit_ne (q : String) {l1 l2 : Int} (h : l1 ≠ l2) :
    hash_query q l1 ≠ hash_query q l2 := by
  intro he
  apply h
  unfold hash_query at he
  have hs := sha256_hexdigest_inj he
  injection hs with hdata
  have ht := List.append_cancel_left hdata
  exact pyStrInt_inj (List.cons.injEq .. ▸ ht).2

/-! ### Supporting lemmas: table operations -/

theorem findSearch_deleteSearch {γ : Type} (key : String) (rows : List (SearchRow γ)) :
    findSearch key (deleteSearch key rows) = none := by
  apply List.find?_eq_none.mpr
  intro r hr
  rcases List.mem_filter.mp hr with ⟨_, h2⟩
  simp at h2
  simp [h2]

theorem mem_deleteSearch_ne {γ : Type} (key : String) (rows : List (SearchRow γ)) :
    ∀ r ∈ deleteSearch key rows, r.query_hash ≠ key := by
  intro r hr
  rcases List.mem_filter.mp hr with ⟨_, h2⟩
  simpa using h2

theorem findSearch_delete_append {γ : Type} (key : String) (row : SearchRow γ)
    (rows : List (SearchRow γ)) (hk : row.query_hash = key) :
    findSearch key (deleteSearch key rows ++ [row]) = some row := by
  unfold findSearch
  rw [List.find?_append]
  have h1 := findSearch_deleteSearch key rows
  unfold findSearch at h1
  rw [h1, Option.none_or]
  simp [List.find?_cons, hk]

theorem findSearch_replaceSearch {γ : Type} (key : String) (row : SearchRow γ)
    (rows : List (SearchRow γ)) (hk : row.query_hash = key) :
    findSearch key (replaceSearch row rows) = some row := by
  unfold replaceSearch
  rw [hk]
  exact findSearch_delete_append key row rows hk

theorem bumpSearch_eq_of_ne {γ : Type} (key : String) (rows : List (SearchRow γ))
    (h : ∀ r ∈ rows, r.query_hash ≠ key) : bumpSearch key rows = rows := by
  unfold bumpSearch
  conv_rhs => rw [← List.map_id rows]
  apply List.map_congr_left
  intro x hx
  rw [if_neg (by simp [h x hx])]
  rfl

theorem bumpSearch_replaceSearch {γ : Type} (key : String) (row : SearchRow γ)
    (rows : List (SearchRow γ)) (hk : row.query_hash = key) :
    bumpSearch key (replaceSearch row rows) =
      deleteSearch key rows ++ [{ row with hit_count := row.hit_count + 1 }] := by
  unfold replaceSearch
  rw [hk]
  unfold bumpSearch
  rw [List.map_append, ← bumpSearch.eq_def,
    bumpSearch_eq_of_ne key _ (mem_deleteSearch_ne key rows)]
  congr 1
  simp [hk]

theorem mem_replaceSearch_eq {γ : Type} {r row : SearchRow γ}
    {rows : List (SearchRow γ)} (hm : r ∈ replaceSearch row rows)
    (hk : r.query_hash = row.query_hash) : r = row := by
  rcases List.mem_append.mp hm with h | h
  · exact absurd hk (mem_deleteSearch_ne _ _ r h)
  · simpa using h

theorem findFunction_deleteFunction {δ : Type} (key : String)
    (rows : List (FunctionRow δ)) :
    findFunction key (deleteFunction key rows) = none := by
  apply List.find?_eq_none.mpr
  intro r hr
  rcases List.mem_filter.mp hr with ⟨_, h2⟩
  simp at h2
  simp [h2]

theorem mem_deleteFunction_ne {δ : Type} (key : String) (rows : List (FunctionRow δ)) :
    ∀ r ∈ deleteFunction key rows, r.function_path ≠ key := by
  intro r hr
  rcases List.mem_filter.mp hr with ⟨_, h2⟩
  simpa using h2

theorem findFunction_delete_append {δ : Type} (key : String) (row : FunctionRow δ)
    (rows : List (FunctionRow δ)) (hk : row.function_path = key) :
    findFunction key (deleteFunction key rows ++ [row]) = some row := by
  unfold findFunction
  rw [List.find?_append]
  have h1 := findFunction_deleteFunction key rows
  unfold findFunction at h1
  rw [h1, Option.none_or]
  simp [List.find?_cons, hk]

theorem findFunction_replaceFunction {δ : Type} (key : String) (row : FunctionRow δ)
    (rows : List (FunctionRow δ)) (hk : row.function_path = key) :
    findFunction key (replaceFunction row rows) = some row := by
  unfold replaceFunction
  rw [hk]
  exact findFunction_delete_append key row rows hk

theorem bumpFunction_eq_of_ne {δ : Type} (key : String) (rows : List (FunctionRow δ))
    (h : ∀ r ∈ rows, r.function_path ≠ key) : bumpFunction key rows = rows := by
  unfold bumpFunction
  conv_rhs => rw [← List.map_id rows]
  apply List.map_congr_left
  intro x hx
  rw [if_neg (by simp [h x hx])]
  rfl

theorem bumpFunction_replaceFunction {δ : Type} (key : String) (row : FunctionRow δ)
    (rows : List (FunctionRow δ)) (hk : row.function_path = key) :
    bumpFunction key (replaceFunction row rows) =
      deleteFunction key rows ++ [{ row with hit_count := row.hit_count + 1 }] := by
  unfold replaceFunction
  rw [hk]
  unfold bumpFunction
  rw [List.map_append, ← bumpFunction.eq_def,
    bumpFunction_eq_of_ne key _ (mem_deleteFunction_ne key rows)]
  congr 1
  simp [hk]

theorem mem_replaceFunction_eq {δ : Type} {r row : FunctionRow δ}
    {rows : List (FunctionRow δ)} (hm : r ∈ replaceFunction row rows)
    (hk : r.function_path = row.function_path) : r = row := by
  rcases List.mem_append.mp hm with h | h
  · exact absurd hk (mem_deleteFunction_ne _ _ r h)
  · simpa using h

/-! ### Step lemmas for the read paths -/

theorem get_search_results_found_live {γ δ : Type} (ttl : Int) (db : CacheDB γ δ)
    (query : String) (limit : Int) (now : Int) (row : SearchRow γ)
    (hf : findSearch (hash_query query limit) db.search_cache = some row)
    (hlive : now - row.created_at < ttl) :
    (DocumentationCache.active ttl db).get_search_results query limit now =
      (some row.results,
       .active ttl ⟨bumpSearch (hash_query query limit) db.search_cache, db.function_cache⟩) := by
  simp [DocumentationCache.get_search_results, hf, hlive]

theorem get_search_results_found_expired {γ δ : Type} (ttl : Int) (db : CacheDB γ δ)
    (query : String) (limit : Int) (now : Int) (row : SearchRow γ)
    (hf : findSearch (hash_query query limit) db.search_cache = some row)
    (hexp : ¬ now - row.created_at < ttl) :
    (DocumentationCache.active ttl db).get_search_results query limit now =
      (none,
       .active ttl ⟨deleteSearch (hash_query query limit) db.search_cache, db.function_cache⟩) := by
  simp [DocumentationCache.get_search_results, hf, hexp]

theorem get_function_details_found_live {γ δ : Type} (ttl : Int) (db : CacheDB γ δ)
    (function_path : String) (now : Int) (row : FunctionRow δ)
    (hf : findFunction function_path db.function_cache = some row)
    (hlive : now - row.created_at < ttl) :
    (DocumentationCache.active ttl db : DocumentationCache γ δ).get_function_details function_path now =
      (some row.details,
       .active ttl ⟨db.search_cache, bumpFunction function_path db.function_cache⟩) := by
  simp [DocumentationCache.get_function_details, hf, hlive]

theorem get_function_details_found_expired {γ δ : Type} (ttl : Int) (db : CacheDB γ δ)
    (function_path : String) (now : Int) (row : FunctionRow δ)
    (hf : findFunction function_path db.function_cache = some row)
    (hexp : ¬ now - row.created_at < ttl) :
    (DocumentationCache.active ttl db : DocumentationCache γ δ).get_function_details function_path now =
      (none,
       .active ttl ⟨db.search_cache, deleteFunction function_path db.function_cache⟩) := by
  simp [DocumentationCache.get_function_details, hf, hexp]

/-! ### Claim theorems -/

/-- C1 (code bug in the source): on a store constructed in disabled mode,
`get_stats` does not return the fixed zeroed snapshot — evaluating the
disabled-branch dict literal reads `self.ttl_seconds`, which the disabled
`__init__` path never assigned, so the call raises `AttributeError` instead
of returning `status: disabled` with zero counts. -/
theorem C1_disabled_get_stats_raises :
    (DocumentationCache.disabled : DocumentationCache Unit Unit).get_stats 0
      = .error (.attributeError "ttl_seconds") := rfl

/-- C7: on a disabled store, for every input, both reads return not-found,
both writes return without effect, `clear_expired` returns 0 and
`clear_all` is a no-op; none of them touches the (absent) backing storage
and none raises — each is a pure identity on the disabled state. -/
theorem C7_disabled_noop {γ δ : Type} (query function_path : String)
    (limit : Int) (results : List γ) (details : δ) (now : Int) :
    (DocumentationCache.disabled : DocumentationCache γ δ).get_search_results query limit now
        = (none, .disabled) ∧
    (DocumentationCache.disabled : DocumentationCache γ δ).get_function_details function_path now
        = (none, .disabled) ∧
    (DocumentationCache.disabled : DocumentationCache γ δ).cache_search_results query limit results now
        = .disabled ∧
    (DocumentationCache.disabled : DocumentationCache γ δ).cache_function_details function_path details now
        = .disabled ∧
    (DocumentationCache.disabled : DocumentationCache γ δ).clear_expired now = (0, .disabled) ∧
    (DocumentationCache.disabled : DocumentationCache γ δ).clear_all = .disabled :=
  ⟨rfl, rfl, rfl, rfl, rfl, rfl⟩

/-- C9: disabled mode arises exactly from a `PermissionError` during
directory creation; a successful `mkdir` yields an active store, and any
other constructor-time exception (`FileExistsError` for a path that exists
as a regular file, `FileNotFoundError` for a missing parent, anything else)
propagates out of the constructor. -/
theorem C9_construct_disabled_only_on_permission {γ δ : Type} (ttl : Int)
    (existing : CacheDB γ δ) (e : PyExc) :
    DocumentationCache.construct γ δ (.ok ()) ttl existing = .ok (.active ttl existing) ∧
    DocumentationCache.construct γ δ (.error .permissionError) ttl existing = .ok .disabled ∧
    (e ≠ .permissionError →
      DocumentationCache.construct γ δ (.error e) ttl existing = .error e) := by
  refine ⟨rfl, rfl, fun he => ?_⟩
  cases e
  · exact absurd rfl he
  all_goals rfl

theorem C9_construct_disabled_only_on_permission_witness :
    DocumentationCache.construct Unit Unit (.error .fileExistsError) 86400 ⟨[], []⟩
      = .error .fileExistsError :=
  (C9_construct_disabled_only_on_permission 86400 ⟨[], []⟩ .fileExistsError).2.2 (by decide)

/-- C8: the `search_docs` tool's limit parameter defaults to 5, and the
limit actually used — for the cache lookup, the remote query and the
write-back alike, via `search_docs_core` — is `max 1 (min 20 limit)`,
which always lies in `[1, 20]`, equals the input when the input is already
in range, and is never rejected. -/
theorem C8_search_docs_limit {γ δ : Type} (env : SearchEnv γ)
    (c : DocumentationCache γ δ) (query : String) (now limit : Int) :
    search_docs_default_limit = 5 ∧
    1 ≤ search_docs_used_limit limit ∧
    search_docs_used_limit limit ≤ 20 ∧
    (1 ≤ limit → limit ≤ 20 → search_docs_used_limit limit = limit) ∧
    search_docs env c query now limit
      = search_docs_core env c query now (search_docs_used_limit limit) := by
  refine ⟨rfl, le_max_left 1 _, max_le (by norm_num) (min_le_left 20 limit),
    fun h1 h2 => ?_, rfl⟩
  unfold search_docs_used_limit
  rw [min_eq_right h2, max_eq_right h1]

theorem C8_search_docs_limit_witness : search_docs_used_limit 7 = 7 :=
  (C8_search_docs_limit ⟨fun _ => ([] : List Nat)⟩
    (.disabled : DocumentationCache Nat Nat) "q" 0 7).2.2.2.1 (by decide) (by decide)

/-- C5: two queries that differ only in letter case and surrounding
whitespace derive the same search-namespace key for any limit, and the same
query text with two different limits derives different keys. -/
theorem C5_hash_query_keys (q1 q2 q : String) (l l1 l2 : Int)
    (hcase : CaseWsVariant q1 q2) (hl : l1 ≠ l2) :
    hash_query q1 l = hash_query q2 l ∧ hash_query q l1 ≠ hash_query q l2 := by
  constructor
  · unfold hash_query
    rw [pyStrip_pyLower_eq hcase]
  · exact hash_query_ne_of_limit_ne q hl

theorem C5_hash_query_keys_witness :
    hash_query "Create Mesh " 5 = hash_query "create mesh" 5 ∧
    hash_query "create mesh" 5 ≠ hash_query "create mesh" 6 :=
  C5_hash_query_keys "Create Mesh " "create mesh" "create mesh" 5 5 6
    ⟨[], "Create Mesh".data, [' '], [], "create mesh".data, [],
     by decide, by decide, by decide, by decide, by decide, by decide, by decide⟩
    (by decide)

/-- C3: writing a results list and immediately (within the TTL) reading it
back with identical parameters returns an equal list; the entry's
`hit_count` is 0 at write and becomes 1 after the read. -/
theorem C3_search_round_trip {γ δ : Type} (ttl : Int) (db : CacheDB γ δ)
    (query : String) (limit : Int) (results : List γ) (t t2 : Int)
    (hlive : t2 - t < ttl) :
    ∃ db1,
      (DocumentationCache.active ttl db).cache_search_results query limit results t
          = .active ttl db1 ∧
      findSearch (hash_query query limit) db1.search_cache
          = some ⟨hash_query query limit, query, results, t, 0⟩ ∧
      ((DocumentationCache.active ttl db1).get_search_results query limit t2).1
          = some results ∧
      ∃ db2,
        ((DocumentationCache.active ttl db1).get_search_results query limit t2).2
            = .active ttl db2 ∧
        findSearch (hash_query query limit) db2.search_cache
            = some ⟨hash_query query limit, query, results, t, 1⟩ := by
  refine ⟨_, rfl,
    findSearch_replaceSearch (hash_query query limit)
      ⟨hash_query query limit, query, results, t, 0⟩ db.search_cache rfl, ?_, ?_⟩
  · rw [get_search_results_found_live ttl _ query limit t2
      ⟨hash_query query limit, query, results, t, 0⟩
      (findSearch_replaceSearch (hash_query query limit)
        ⟨hash_query query limit, query, results, t, 0⟩ _ rfl) hlive]
  · refine ⟨⟨bumpSearch (hash_query query limit)
        (replaceSearch ⟨hash_query query limit, query, results, t, 0⟩ db.search_cache),
      db.function_cache⟩, ?_, ?_⟩
    · rw [get_search_results_found_live ttl _ query limit t2
        ⟨hash_query query limit, query, results, t, 0⟩
        (findSearch_replaceSearch (hash_query query limit)
          ⟨hash_query query limit, query, results, t, 0⟩ _ rfl) hlive]
    · rw [bumpSearch_replaceSearch (hash_query query limit)
        ⟨hash_query query limit, query, results, t, 0⟩ _ rfl]
      exact findSearch_delete_append (hash_query query limit)
        ⟨hash_query query limit, query, results, t, 1⟩ _ rfl

theorem C3_search_round_trip_witness :
    (((DocumentationCache.active 86400 (⟨[], []⟩ : CacheDB Nat Nat)).cache_search_results
        "subdivide mesh" 5 [1, 2] 0).get_search_results "subdivide mesh" 5 10).1
      = some [1, 2] := by
  obtain ⟨db1, h1, _, h3, _⟩ :=
    C3_search_round_trip 86400 (⟨[], []⟩ : CacheDB Nat Nat) "subdivide mesh" 5 [1, 2] 0 10
      (by decide)
  rw [h1]
  exact h3

/-- C4: a read of an expired entry (`now - created_at ≥ ttl_seconds`) in
either namespace returns not-found and deletes the row before returning,
so no row with that key remains in the store. -/
theorem C4_expired_read_evicts {γ δ : Type} (ttl : Int) (db : CacheDB γ δ)
    (query : String) (limit : Int) (function_path : String) (now : Int)
    (srow : SearchRow γ) (frow : FunctionRow δ)
    (hsf : findSearch (hash_query query limit) db.search_cache = some srow)
    (hsexp : now - srow.created_at ≥ ttl)
    (hff : findFunction function_path db.function_cache = some frow)
    (hfexp : now - frow.created_at ≥ ttl) :
    ((DocumentationCache.active ttl db).get_search_results query limit now).1 = none ∧
    (∃ db1, ((DocumentationCache.active ttl db).get_search_results query limit now).2
        = .active ttl db1 ∧
      ∀ r ∈ db1.search_cache, r.query_hash ≠ hash_query query limit) ∧
    ((DocumentationCache.active ttl db).get_function_details function_path now).1 = none ∧
    (∃ db2, ((DocumentationCache.active ttl db).get_function_details function_path now).2
        = .active ttl db2 ∧
      ∀ r ∈ db2.function_cache, r.function_path ≠ function_path) := by
  have hs := get_search_results_found_expired ttl db query limit now srow hsf (not_lt.mpr hsexp)
  have hf := get_function_details_found_expired ttl db function_path now frow hff (not_lt.mpr hfexp)
  refine ⟨?_,
    ⟨⟨deleteSearch (hash_query query limit) db.search_cache, db.function_cache⟩, ?_, ?_⟩,
    ?_,
    ⟨⟨db.search_cache, deleteFunction function_path db.function_cache⟩, ?_, ?_⟩⟩
  · rw [hs]
  · rw [hs]
  · exact mem_deleteSearch_ne _ _
  · rw [hf]
  · rw [hf]
  · exact mem_deleteFunction_ne _ _

theorem C4_expired_read_evicts_witness :
    ((DocumentationCache.active 1
        (⟨[⟨hash_query "q" 5, "q", [7], 0, 0⟩], [⟨"p", 9, 0, 0⟩]⟩ : CacheDB Nat Nat)).get_search_results
        "q" 5 10).1 = none ∧
    ((DocumentationCache.active 1
        (⟨[⟨hash_query "q" 5, "q", [7], 0, 0⟩], [⟨"p", 9, 0, 0⟩]⟩ : CacheDB Nat Nat)).get_function_details
        "p" 10).1 = none := by
  obtain ⟨h1, _, h3, _⟩ :=
    C4_expired_read_evicts 1
      (⟨[⟨hash_query "q" 5, "q", [7], 0, 0⟩], [⟨"p", 9, 0, 0⟩]⟩ : CacheDB Nat Nat)
      "q" 5 "p" 10 ⟨hash_query "q" 5, "q", [7], 0, 0⟩ ⟨"p", 9, 0, 0⟩
      rfl (by decide) rfl (by decide)
  exact ⟨h1, h3⟩

/-- C6: writing the same derived key twice with different payloads — in
either namespace, from any starting state, whatever the previous row's
`hit_count` — leaves exactly one row under that key, carrying the second
payload with `hit_count` reset to 0, and only the second payload is
retrievable. -/
theorem C6_overwrite_resets {γ δ : Type} (ttl : Int) (db : CacheDB γ δ)
    (query : String) (limit : Int) (rs1 rs2 : List γ)
    (function_path : String) (d1 d2 : δ) (t1 t2 t3 : Int)
    (hlive : t3 - t2 < ttl) :
    (∃ db2,
      ((DocumentationCache.active ttl db).cache_search_results query limit rs1 t1).cache_search_results
          query limit rs2 t2 = .active ttl db2 ∧
      findSearch (hash_query query limit) db2.search_cache
          = some ⟨hash_query query limit, query, rs2, t2, 0⟩ ∧
      (∀ r ∈ db2.search_cache, r.query_hash = hash_query query limit →
          r = ⟨hash_query query limit, query, rs2, t2, 0⟩) ∧
      ((DocumentationCache.active ttl db2).get_search_results query limit t3).1
          = some rs2) ∧
    (∃ db3,
      ((DocumentationCache.active ttl db).cache_function_details function_path d1 t1).cache_function_details
          function_path d2 t2 = .active ttl db3 ∧
      findFunction function_path db3.function_cache
          = some ⟨function_path, d2, t2, 0⟩ ∧
      (∀ r ∈ db3.function_cache, r.function_path = function_path →
          r = ⟨function_path, d2, t2, 0⟩) ∧
      ((DocumentationCache.active ttl db3).get_function_details function_path t3).1
          = some d2) := by
  constructor
  · refine ⟨_, rfl,
      findSearch_replaceSearch (hash_query query limit)
        ⟨hash_query query limit, query, rs2, t2, 0⟩ _ rfl, ?_, ?_⟩
    · intro r hm hk
      exact mem_replaceSearch_eq hm hk
    · rw [get_search_results_found_live ttl _ query limit t3
        ⟨hash_query query limit, query, rs2, t2, 0⟩
        (findSearch_replaceSearch (hash_query query limit)
          ⟨hash_query query limit, query, rs2, t2, 0⟩ _ rfl) hlive]
  · refine ⟨_, rfl,
      findFunction_replaceFunction function_path
        ⟨function_path, d2, t2, 0⟩ _ rfl, ?_, ?_⟩
    · intro r hm hk
      exact mem_replaceFunction_eq hm hk
    · rw [get_function_details_found_live ttl _ function_path t3
        ⟨function_path, d2, t2, 0⟩
        (findFunction_replaceFunction function_path
          ⟨function_path, d2, t2, 0⟩ _ rfl) hlive]

theorem C6_overwrite_resets_witness :
    ∃ db2,
      ((DocumentationCache.active 86400 (⟨[], []⟩ : CacheDB Nat Nat)).cache_search_results
          "q" 5 [1] 0).cache_search_results "q" 5 [2] 1 = .active 86400 db2 ∧
      findSearch (hash_query "q" 5) db2.search_cache
          = some ⟨hash_query "q" 5, "q", [2], 1, 0⟩ := by
  obtain ⟨⟨db2, h1, h2, _⟩, _⟩ :=
    C6_overwrite_resets 86400 (⟨[], []⟩ : CacheDB Nat Nat) "q" 5 [1] [2] "p" 8 9 0 1 2
      (by decide)
  exact ⟨db2, h1, h2⟩

/-- C10: caching an empty results list gives, within the TTL, a hit
returning `some []` (incrementing `hit_count` to 1) — distinguishable at
the store level from the miss value `none` — while the enclosing tool's
truthiness test (`if cached_results:`) evaluates the empty hit exactly like
a miss. -/
theorem C10_empty_list_hit {γ δ : Type} (ttl : Int) (db : CacheDB γ δ)
    (query : String) (limit : Int) (t t2 : Int) (hlive : t2 - t < ttl) :
    ∃ db1,
      (DocumentationCache.active ttl db).cache_search_results query limit [] t
          = .active ttl db1 ∧
      ((DocumentationCache.active ttl db1).get_search_results query limit t2).1
          = some [] ∧
      some ([] : List γ) ≠ (none : Option (List γ)) ∧
      (∃ db2, ((DocumentationCache.active ttl db1).get_search_results query limit t2).2
          = .active ttl db2 ∧
        findSearch (hash_query query limit) db2.search_cache
            = some ⟨hash_query query limit, query, [], t, 1⟩) ∧
      pyTruthy (some ([] : List γ)) = pyTruthy (none : Option (List γ)) := by
  refine ⟨_, rfl, ?_, fun h => Option.noConfusion h, ?_, rfl⟩
  · rw [get_search_results_found_live ttl _ query limit t2
      ⟨hash_query query limit, query, [], t, 0⟩
      (findSearch_replaceSearch (hash_query query limit)
        ⟨hash_query query limit, query, [], t, 0⟩ _ rfl) hlive]
  · refine ⟨⟨bumpSearch (hash_query query limit)
        (replaceSearch ⟨hash_query query limit, query, [], t, 0⟩ db.search_cache),
      db.function_cache⟩, ?_, ?_⟩
    · rw [get_search_results_found_live ttl _ query limit t2
        ⟨hash_query query limit, query, [], t, 0⟩
        (findSearch_replaceSearch (hash_query query limit)
          ⟨hash_query query limit, query, [], t, 0⟩ _ rfl) hlive]
    · rw [bumpSearch_replaceSearch (hash_query query limit)
        ⟨hash_query query limit, query, [], t, 0⟩ _ rfl]
      exact findSearch_delete_append (hash_query query limit)
        ⟨hash_query query limit, query, [], t, 1⟩ _ rfl

theorem C10_empty_list_hit_witness :
    (((DocumentationCache.active 86400 (⟨[], []⟩ : CacheDB Nat Nat)).cache_search_results
        "q" 5 [] 0).get_search_results "q" 5 10).1 = some [] := by
  obtain ⟨db1, h1, h2, _⟩ :=
    C10_empty_list_hit 86400 (⟨[], []⟩ : CacheDB Nat Nat) "q" 5 0 10 (by decide)
  rw [h1]
  exact h2

/-- C2 (counterexample to the claim as stated): a row whose age is exactly
the TTL (`now - created_at = ttl_seconds`, hence `now - created_at ≥
ttl_seconds` — expired in the claim's sense) is neither removed nor counted
by `clear_expired`, because the sweep's SQL predicate is the strict
`created_at < now - ttl`. -/
theorem C2_clear_expired_counterexample :
    (5 : Int) - (0 : Int) ≥ 5 ∧
    ((DocumentationCache.active 5
        (⟨[⟨"k", "q", [0], 0, 0⟩], []⟩ : CacheDB Nat Nat)).clear_expired 5).1 = 0 ∧
    ((DocumentationCache.active 5
        (⟨[⟨"k", "q", [0], 0, 0⟩], []⟩ : CacheDB Nat Nat)).clear_expired 5).2
      = .active 5 ⟨[⟨"k", "q", [0], 0, 0⟩], []⟩ :=
  ⟨by decide, by decide, by decide⟩

/-- C2 (amended): `clear_expired` removes from both namespaces exactly the
rows with `created_at < now - ttl_seconds` (equivalently
`now - created_at > ttl_seconds`, strictly), removes no live row, and
returns the total number of rows so removed; rows at the boundary
`now - created_at = ttl_seconds` are kept. -/
theorem C2_clear_expired_amended {γ δ : Type} (ttl : Int) (db : CacheDB γ δ) (now : Int) :
    ∃ db1, ((DocumentationCache.active ttl db).clear_expired now).2 = .active ttl db1 ∧
      (∀ r : SearchRow γ,
        r ∈ db1.search_cache ↔ r ∈ db.search_cache ∧ ¬ r.created_at < now - ttl) ∧
      (∀ r : FunctionRow δ,
        r ∈ db1.function_cache ↔ r ∈ db.function_cache ∧ ¬ r.created_at < now - ttl) ∧
      ((DocumentationCache.active ttl db).clear_expired now).1
          = (db.search_cache.countP fun r => decide (r.created_at < now - ttl))
            + (db.function_cache.countP fun r => decide (r.created_at < now - ttl)) := by
  refine ⟨_, rfl, ?_, ?_, ?_⟩
  · intro r
    constructor
    · intro hr
      rcases List.mem_filter.mp hr with ⟨hm, hp⟩
      refine ⟨hm, by simpa using hp⟩
    · intro hrp
      exact List.mem_filter.mpr ⟨hrp.1, by simpa using hrp.2⟩
  · intro r
    constructor
    · intro hr
      rcases List.mem_filter.mp hr with ⟨hm, hp⟩
      refine ⟨hm, by simpa using hp⟩
    · intro hrp
      exact List.mem_filter.mpr ⟨hrp.1, by simpa using hrp.2⟩
  · show _ + _ = _
    rw [List.countP_eq_length_filter, List.countP_eq_length_filter]
